import Mathlib

/-!
Shallow embedding of `moviebot/dialogue_manager/dialogue_policy.py`
(class `DialoguePolicy`) and proofs about it.

Python specifics modelled explicitly:
* a `dict` is an insertion-ordered association list; `d[k]` on a missing
  key raises `KeyError`, embedded as `Except.error (PyErr.keyError k)`;
* `l[0]` on an empty list raises `IndexError` (`PyErr.indexError`);
* `random.shuffle` / `random.sample` are modelled by a `RandomSource`
  record of oracle functions; theorems that need it assume the shuffle
  oracle returns a permutation of its input;
* `deepcopy` of an immutable value is the identity; the aliasing content
  of `deepcopy` is treated separately by the heap-instrumented embedding
  (`next_actionH` below) used for the non-mutation property.

`DialogueState`, `DialogueAct`, `ItemConstraint`, `Slots` and the intent
enumerations are imported by the source file but their modules are not
part of the excerpt; their shape is taken from the specification's data
model (an intent tag plus an ordered sequence of constraints, a frame
mapping slot names to a filled flag, etc.).  `_agent_offer_state` is
modelled as the already-parsed ordered list of active tag names, since
`ast.literal_eval` of the state's string form is the identity on that
list.
-/

/-- User intent tags (from `moviebot.core.intents.user_intents`, not in the
excerpt; the members referenced by the policy plus a representative
unhandled one). -/
inductive UserIntents
  | RESTART
  | HI
  | ACKNOWLEDGE
  | UNK
  | INQUIRE
  | ACCEPT
  | REJECT
  deriving DecidableEq, Repr

/-- Agent intent tags (from `moviebot.core.intents.agent_intents`). -/
inductive AgentIntents
  | RESTART
  | ELICIT
  | WELCOME
  | COUNT_RESULTS
  | RECOMMEND
  | INFORM
  | CONTINUE_RECOMMENDATION
  | NO_RESULTS
  | BYE
  | CANT_HELP
  deriving DecidableEq, Repr

/-- An intent is either a user intent or an agent intent; comparing a user
intent with an agent intent is `False`, as in Python where the two enum
types are distinct. -/
inductive Intent
  | user (i : UserIntents)
  | agent (i : AgentIntents)
  deriving DecidableEq, Repr

/-- Constraint values: the policy stores strings (slot values, the empty
elicitation placeholder), booleans (`new_user`, `is_bot`) and an integer
(the `count` of database results). -/
inductive Value
  | str (s : String)
  | bool (b : Bool)
  | num (n : Nat)
  deriving DecidableEq, Repr

/-- Comparison operator of a constraint; the policy only ever builds
`Operator.EQ`. -/
inductive Operator
  | EQ
  deriving DecidableEq, Repr

/-- `ItemConstraint(slot, op, value)`. -/
structure ItemConstraint where
  slot : String
  op : Operator
  value : Value
  deriving DecidableEq, Repr

/-- `DialogueAct(intent, params)`; `params` defaults to `[]` in the
source, spelled explicitly here. -/
structure DialogueAct where
  intent : Intent
  params : List ItemConstraint
  deriving DecidableEq, Repr

/-- A database record: an insertion-ordered mapping from slot name to
value. -/
abbrev Item := List (String × Value)

/-- Python `dict` lookup on an association list (keys are unique in a
dict, so first match is the match); `none` models a `KeyError`. -/
def dictGet {α : Type} (l : List (String × α)) (k : String) : Option α :=
  match l with
  | [] => none
  | (k2, v) :: rest => if k2 = k then some v else dictGet rest k

/- Slot-name constants (`moviebot.nlu.annotation.slots`, not in the
excerpt; the spec singles out the title slot and the generic more-info
slot). -/
namespace Slots

def TITLE : String := "title"

def MORE_INFO : String := "more_info"

end Slots

/-- Python exceptions the policy can raise, plus the distinct
"descriptive state-inconsistency error" the specification's error-handling
section asks for (never produced by the code, kept as a separate
constructor so the two are comparable). -/
inductive PyErr
  | keyError (key : String)
  | indexError
  | attributeError
  | stateInconsistency (msg : String)
  deriving DecidableEq, Repr

/-- Whether an `Except` result is the specification's descriptive
state-inconsistency error. -/
def errIsStateInconsistency {α : Type} : Except PyErr α → Bool
  | .error (.stateInconsistency _) => true
  | _ => false

/-- Oracle for `random.shuffle` (returning the shuffled list) and
`random.sample(l, 2)` (returning the sampled sublist). -/
structure RandomSource where
  shuffle : List String → List String
  sample2 : List String → List String

/-- A `RandomSource` whose shuffle is the identity permutation. -/
def idRS : RandomSource :=
  { shuffle := fun l => l, sample2 := fun l => l.take 2 }

/-- The per-turn dialogue-state snapshot (fields of
`moviebot.dialogue_manager.dialogue_state` read by the policy; the frame
maps a slot name to its "is filled" flag, and `agent_offer_state` is the
parsed active-tag list produced by `_agent_offer_state`). -/
structure DialogueState where
  last_user_dacts : List DialogueAct
  last_agent_dacts : List DialogueAct
  agent_requestable : List String
  frame_CIN : List (String × Bool)
  slot_left_unasked : Nat
  database_result : List Item
  item_in_focus : Item
  agent_req_filled : Bool
  agent_should_make_offer : Bool
  agent_offer_state : List String
  deriving DecidableEq, Repr

/-- The policy instance's configuration (`__init__`; the ontology is
stored but never consulted by the decision logic in the excerpt). -/
structure DialoguePolicy where
  isBot : Bool
  new_user : Bool
  deriving DecidableEq, Repr

/-- `CIN_slots`: the unfilled, non-title keys of `frame_CIN`, in frame
order (the list comprehension at the top of `elicit`). -/
def CIN_slots_of (frame : List (String × Bool)) : List String :=
  (frame.filter (fun p => !p.2 && !(p.1 == Slots.TITLE))).map Prod.fst

/-- The `COUNT_RESULTS` act built by `elicit`. -/
def countResultsAct (ds : DialogueState) : DialogueAct :=
  ⟨.agent .COUNT_RESULTS,
    [⟨"count", .EQ, .num ds.database_result.length⟩]⟩

/-- The `for slot in slots: if not frame_CIN[slot]: append; break` loop of
`elicit`'s else-branch: the params of the `ELICIT` act (empty when no
unfilled slot is found), or a `KeyError` when a slot is missing from the
frame before any unfilled slot is reached. -/
def findFirstUnfilled (frame : List (String × Bool)) :
    List String → Except PyErr (List ItemConstraint)
  | [] => .ok []
  | slot :: rest =>
    match dictGet frame slot with
    | none => .error (.keyError slot)
    | some filled =>
      if filled then findFirstUnfilled frame rest
      else .ok [⟨slot, .EQ, .str ""⟩]

/-- `DialoguePolicy.elicit` (lines 158–211). -/
def elicit (rs : RandomSource) (ds : DialogueState) (slots : List String) :
    Except PyErr (List DialogueAct) :=
  let CINs := CIN_slots_of ds.frame_CIN
  if ds.slot_left_unasked ≤ CINs.length then
    if ds.agent_req_filled then
      match rs.shuffle CINs with
      | [] => .error .indexError
      | s :: _ =>
        .ok [countResultsAct ds, ⟨.agent .ELICIT, [⟨s, .EQ, .str ""⟩]⟩]
    else
      match findFirstUnfilled ds.frame_CIN (rs.shuffle slots) with
      | .error e => .error e
      | .ok params => .ok [countResultsAct ds, ⟨.agent .ELICIT, params⟩]
  else .ok []

/-- `DialoguePolicy.recommend` (lines 213–241): the selected item's
title constraint, `IndexError` on an empty `database_result` when no
offer is pending. -/
def recommend (ds : DialogueState) (slots : List String) :
    Except PyErr (List DialogueAct) :=
  let item? : Except PyErr Item :=
    if ds.agent_should_make_offer then .ok ds.item_in_focus
    else
      match ds.database_result with
      | [] => .error .indexError
      | i :: _ => .ok i
  match item? with
  | .error e => .error e
  | .ok item =>
    match dictGet item Slots.TITLE with
    | none => .error (.keyError Slots.TITLE)
    | some t =>
      .ok [⟨.agent .RECOMMEND, [⟨Slots.TITLE, .EQ, t⟩]⟩]

/-- The inner `for param in user_dact.params` loop of
`inform_or_recommend`: each non-more-info slot is copied from the item in
focus, the more-info slot is substituted by the item's title; a missing
key raises. -/
def informParams (item : Item) :
    List ItemConstraint → Except PyErr (List ItemConstraint)
  | [] => .ok []
  | p :: rest =>
    if p.slot ≠ Slots.MORE_INFO then
      match dictGet item p.slot with
      | none => .error (.keyError p.slot)
      | some v =>
        match informParams item rest with
        | .error e => .error e
        | .ok ps => .ok (⟨p.slot, .EQ, v⟩ :: ps)
    else
      match dictGet item Slots.TITLE with
      | none => .error (.keyError Slots.TITLE)
      | some v =>
        match informParams item rest with
        | .error e => .error e
        | .ok ps => .ok (⟨p.slot, .EQ, v⟩ :: ps)

/-- One iteration of the `for user_dact in last_user_dacts` loop of
`inform_or_recommend`: the acts (zero or one) this user act contributes.
`INQUIRE` builds an `INFORM` act (deny fallback when no parameter was
added), `ACCEPT` builds a `CONTINUE_RECOMMENDATION` act, other intents
are skipped. -/
def processUserDact (item : Item) (ud : DialogueAct) :
    Except PyErr (List DialogueAct) :=
  if ud.intent = .user .INQUIRE then
    match informParams item ud.params with
    | .error e => .error e
    | .ok ps =>
      if ps.length = 0 then
        match dictGet item Slots.TITLE with
        | none => .error (.keyError Slots.TITLE)
        | some t => .ok [⟨.agent .INFORM, [⟨"deny", .EQ, t⟩]⟩]
      else .ok [⟨.agent .INFORM, ps⟩]
  else if ud.intent = .user .ACCEPT then
    match dictGet item Slots.TITLE with
    | none => .error (.keyError Slots.TITLE)
    | some t =>
      .ok [⟨.agent .CONTINUE_RECOMMENDATION,
             [⟨Slots.TITLE, .EQ, t⟩]⟩]
  else .ok []

/-- The outer loop of `inform_or_recommend`: accumulate each user act's
contribution in order, propagating a raise. -/
def inform_go (item : Item) :
    List DialogueAct → Except PyErr (List DialogueAct)
  | [] => .ok []
  | ud :: rest =>
    match processUserDact item ud with
    | .error e => .error e
    | .ok acts1 =>
      match inform_go item rest with
      | .error e => .error e
      | .ok acts => .ok (acts1 ++ acts)

/-- `DialoguePolicy.inform_or_recommend` (lines 243–298). -/
def inform_or_recommend (ds : DialogueState) (slots : List String) :
    Except PyErr (List DialogueAct) :=
  inform_go ds.item_in_focus ds.last_user_dacts

/-- `DialoguePolicy.no_results` (lines 144–156). -/
def no_results (ds : DialogueState) (slots : List String) :
    Except PyErr (List DialogueAct) :=
  .ok [⟨.agent .NO_RESULTS, []⟩]

/-- `DialoguePolicy.finish` (lines 130–142). -/
def finish (ds : DialogueState) (slots : List String) :
    Except PyErr (List DialogueAct) :=
  .ok [⟨.agent .BYE, []⟩]

/-- `DialoguePolicy.choose_elicit_or_recommend` (lines 300–315):
Python's `elicit(...) or recommend(...)` on lists — the elicit result if
it is non-empty, otherwise the recommend result. -/
def choose_elicit_or_recommend (rs : RandomSource) (ds : DialogueState)
    (slots : List String) : Except PyErr (List DialogueAct) :=
  match elicit rs ds slots with
  | .error e => .error e
  | .ok [] => recommend ds slots
  | .ok acts => .ok acts

/-- The `possible_actions_per_state` dict of `next_action` (lines
110–118): tag name → handler, `none` for an unrecognized tag. -/
def possible_actions_per_state (rs : RandomSource) (name : String) :
    Option (DialogueState → List String → Except PyErr (List DialogueAct)) :=
  if name = "agent_req_filled" then some (elicit rs)
  else if name = "agent_made_partial_offer" then
    some (choose_elicit_or_recommend rs)
  else if name = "agent_should_make_offer" then some recommend
  else if name = "agent_made_offer" then some inform_or_recommend
  else if name = "agent_offer_no_results" then some no_results
  else if name = "at_terminal_state" then some finish
  else none

/-- The `CANT_HELP` fallback act. -/
def cantHelpAct : DialogueAct := ⟨.agent .CANT_HELP, []⟩

/-- The state-table dispatch loop of `next_action` (lines 120–128): first
active tag whose handler yields a non-empty result wins; an empty result
falls through; after the loop, `CANT_HELP`. -/
def dispatchGo (rs : RandomSource) (ds : DialogueState)
    (slots : List String) :
    List String → Except PyErr (List DialogueAct)
  | [] => .ok [cantHelpAct]
  | name :: rest =>
    match possible_actions_per_state rs name with
    | none => dispatchGo rs ds slots rest
    | some handler =>
      match handler ds slots with
      | .error e => .error e
      | .ok [] => dispatchGo rs ds slots rest
      | .ok acts => .ok acts

/-- The restart guard of `next_action` (lines 55–58). -/
def restartCond (ds : DialogueState) (restart : Bool) : Bool :=
  restart || ds.last_user_dacts.any (fun d => d.intent = .user .RESTART)

/-- The conversation-start guard of `next_action` (lines 69–78). -/
def startCond (ds : DialogueState) (restart : Bool) : Bool :=
  !restart &&
    (ds.last_user_dacts.isEmpty || ds.last_agent_dacts.isEmpty ||
      ds.last_user_dacts.all (fun d => d.intent = .user .HI))

/-- The post-welcome acknowledgement guard of `next_action` (lines
90–101). -/
def ackCond (ds : DialogueState) : Bool :=
  (ds.last_user_dacts.any (fun d =>
      d.intent = .user .ACKNOWLEDGE || d.intent = .user .UNK)) &&
    (ds.last_agent_dacts.any (fun d => d.intent = .agent .WELCOME))

/-- The `WELCOME` act built by the conversation-start branch. -/
def welcomeAct (pol : DialoguePolicy) : DialogueAct :=
  ⟨.agent .WELCOME,
    [⟨"new_user", .EQ, .bool pol.new_user⟩,
     ⟨"is_bot", .EQ, .bool pol.isBot⟩]⟩

/-- `DialoguePolicy.next_action` (lines 34–128).  `slots` is the
(deep-copied) `agent_requestable` list; on pure values the copy is the
identity. -/
def next_action (pol : DialoguePolicy) (rs : RandomSource)
    (ds : DialogueState) (restart : Bool) :
    Except PyErr (List DialogueAct) :=
  let slots := ds.agent_requestable
  if restartCond ds restart then
    match slots with
    | [] => .error .indexError
    | s0 :: _ =>
      .ok [⟨.agent .RESTART, []⟩,
           ⟨.agent .ELICIT, [⟨s0, .EQ, .str ""⟩]⟩]
  else if startCond ds restart then
    .ok [welcomeAct pol]
  else if ackCond ds then
    match slots with
    | [] => .error .indexError
    | s0 :: _ => .ok [⟨.agent .ELICIT, [⟨s0, .EQ, .str ""⟩]⟩]
  else dispatchGo rs ds slots ds.agent_offer_state

/-- The single-quote character, written by code point to keep it out of
the surrounding text. -/
def sglQuote : String := String.singleton (Char.ofNat 39)

/-- The f-string wrapping of `_generate_examples`: a fragment is stored
wrapped in single quotes. -/
def quoteFrag (s : String) : String := sglQuote ++ s ++ sglQuote

/-- Split a character list at every separator (structural-recursion
equivalent of Python `str.split(sep)`, which keeps empty pieces). -/
def splitOnPred (p : Char → Bool) : List Char → List Char → List String
  | [], acc => [String.mk acc.reverse]
  | c :: rest, acc =>
    if p c then String.mk acc.reverse :: splitOnPred p rest []
    else splitOnPred p rest (c :: acc)

/-- Python `value.split(",")`. -/
def pySplitComma (s : String) : List String :=
  splitOnPred (fun c => c = Char.ofNat 44) s.data []

/-- Python `x.strip()`: drop leading and trailing whitespace. -/
def pyStrip (s : String) : String :=
  String.mk
    (((s.data.dropWhile Char.isWhitespace).reverse.dropWhile
        Char.isWhitespace).reverse)

/-- Python `x.split()` with no argument: split on whitespace runs,
dropping empty pieces (used for the two-word filter). -/
def pySplitWs (s : String) : List String :=
  (splitOnPred Char.isWhitespace s.data []).filter (fun x => x ≠ "")

deriving instance DecidableEq for Except

/-- The accumulation loop of `_generate_examples` (lines 329–336): per
result, split the slot's raw value on commas, strip, quote the fragments
not already present, extend, and stop once more than 20 distinct entries
are collected.  A missing slot raises `KeyError`; a non-string value has
no `.split` and raises. -/
def collectExamples (slot : String) :
    List Item → List String → Except PyErr (List String)
  | [], examples => .ok examples
  | result :: rest, examples =>
    match dictGet result slot with
    | none => .error (.keyError slot)
    | some (Value.str s) =>
      let temp := (pySplitComma s).map pyStrip
      let examples2 :=
        examples ++
          (temp.filter (fun x => !examples.contains x)).map quoteFrag
      if 20 < examples2.eraseDups.length then .ok examples2
      else collectExamples slot rest examples2
    | some _ => .error .attributeError

/-- `DialoguePolicy._generate_examples` (lines 317–346).  `list(set(...))`
followed by `random.shuffle` is modelled as one oracle permutation of the
deduplicated list; the implicit `return None` on no examples is
`Option.none`. -/
def generate_examples (rs : RandomSource)
    (database_result : List Item) (slot : String) :
    Except PyErr (Option String) :=
  match collectExamples slot database_result [] with
  | .error e => .error e
  | .ok examples =>
    if examples.isEmpty then .ok none
    else
      let ex2 := rs.shuffle examples.eraseDups
      if ex2.length = 1 then .ok (some (ex2.getD 0 ""))
      else
        let sub := ex2.filter (fun x => (pySplitWs x).length = 2)
        if 2 ≤ sub.length then
          .ok (some (" or ".intercalate (rs.sample2 sub)))
        else .ok (some (" or ".intercalate (rs.sample2 ex2)))

/-! ## Helper lemmas shared between claims -/

/-- When every slot of the list has a (filled or unfilled) entry in the
frame, the first-unfilled scan cannot raise. -/
theorem findFirstUnfilled_ok (frame : List (String × Bool))
    (l : List String) (h : ∀ s ∈ l, (dictGet frame s).isSome) :
    ∃ ps, findFirstUnfilled frame l = .ok ps := by
  induction l with
  | nil => exact ⟨[], rfl⟩
  | cons s rest ih =>
    have hs : (dictGet frame s).isSome := h s (by simp)
    obtain ⟨v, hv⟩ := Option.isSome_iff_exists.mp hs
    cases v with
    | false => exact ⟨[⟨s, .EQ, .str ""⟩], by simp [findFirstUnfilled, hv]⟩
    | true =>
      obtain ⟨ps, hps⟩ := ih (fun x hx => h x (by simp [hx]))
      exact ⟨ps, by simp [findFirstUnfilled, hv, hps]⟩

/-- When every slot of the list is present and filled in the frame, the
first-unfilled scan finds nothing and yields an empty parameter list. -/
theorem findFirstUnfilled_all_filled (frame : List (String × Bool))
    (l : List String) (h : ∀ s ∈ l, dictGet frame s = some true) :
    findFirstUnfilled frame l = .ok [] := by
  induction l with
  | nil => rfl
  | cons s rest ih =>
    have hs : dictGet frame s = some true := h s (by simp)
    simp [findFirstUnfilled, hs]
    exact ih (fun x hx => h x (by simp [hx]))

/-! ## C4 -/

/-- C4: for a snapshot with non-empty `agent_requestable`, if `restart`
is true or some last user act carries the RESTART intent, `next_action`
returns exactly `[RESTART, ELICIT(slot0 = "")]` where `slot0` is the
first requestable slot, regardless of every other field. -/
theorem restart_two_act_sequence (pol : DialoguePolicy) (rs : RandomSource)
    (ds : DialogueState) (restart : Bool) (s0 : String) (rest : List String)
    (hreq : ds.agent_requestable = s0 :: rest)
    (hr : restart = true ∨
      ds.last_user_dacts.any (fun d => d.intent = .user .RESTART) = true) :
    next_action pol rs ds restart =
      .ok [⟨.agent .RESTART, []⟩,
           ⟨.agent .ELICIT, [⟨s0, .EQ, .str ""⟩]⟩] := by
  have hcond : restartCond ds restart = true := by
    unfold restartCond
    rcases hr with h | h <;> simp [h]
  simp [next_action, hcond, hreq]

/-- Witness for C4 at a concrete snapshot. -/
def dsRestartW : DialogueState :=
  { last_user_dacts := [⟨.user .RESTART, []⟩]
    last_agent_dacts := [⟨.agent .RECOMMEND, []⟩]
    agent_requestable := ["genres", "actors"]
    frame_CIN := [("genres", true)]
    slot_left_unasked := 2
    database_result := []
    item_in_focus := []
    agent_req_filled := true
    agent_should_make_offer := true
    agent_offer_state := ["at_terminal_state"] }

/-- C4 witness: the theorem applied at a concrete snapshot. -/
theorem restart_two_act_sequence_witness :
    next_action ⟨true, false⟩ idRS dsRestartW false =
      .ok [⟨.agent .RESTART, []⟩,
           ⟨.agent .ELICIT, [⟨"genres", .EQ, .str ""⟩]⟩] :=
  restart_two_act_sequence ⟨true, false⟩ idRS dsRestartW false "genres"
    ["actors"] rfl (Or.inr (by decide))

/-! ## C8 -/

/-- C8: with `restart` false and no RESTART user intent, if the last
user acts are empty, or the last agent acts are empty, or every last
user act is a greeting, `next_action` returns exactly one `WELCOME` act
carrying the configured `new_user` and `is_bot` flags. -/
theorem start_welcome_act (pol : DialoguePolicy) (rs : RandomSource)
    (ds : DialogueState)
    (hnr : ds.last_user_dacts.any
      (fun d => d.intent = .user .RESTART) = false)
    (hst : ds.last_user_dacts = [] ∨ ds.last_agent_dacts = [] ∨
      ds.last_user_dacts.all (fun d => d.intent = .user .HI) = true) :
    next_action pol rs ds false =
      .ok [⟨.agent .WELCOME,
        [⟨"new_user", .EQ, .bool pol.new_user⟩,
         ⟨"is_bot", .EQ, .bool pol.isBot⟩]⟩] := by
  have hrc : restartCond ds false = false := by
    simp [restartCond, hnr]
  have hsc : startCond ds false = true := by
    unfold startCond
    rcases hst with h | h | h <;> simp [h]
  simp [next_action, hrc, hsc, welcomeAct]

/-- Witness for C8 at a concrete snapshot. -/
def dsStartW : DialogueState :=
  { dsRestartW with
    last_user_dacts := [⟨.user .HI, []⟩] }

/-- C8 witness: the theorem applied at a concrete snapshot. -/
theorem start_welcome_act_witness :
    next_action ⟨true, false⟩ idRS dsStartW false =
      .ok [⟨.agent .WELCOME,
        [⟨"new_user", .EQ, .bool false⟩,
         ⟨"is_bot", .EQ, .bool true⟩]⟩] :=
  start_welcome_act ⟨true, false⟩ idRS dsStartW (by decide)
    (Or.inr (Or.inr (by decide)))

/-! ## C10 -/

/-- C10: on a snapshot that takes any of the three pre-dispatch branches
(restart, conversation start, post-welcome acknowledgement),
`next_action` does not consult the random source: two calls with equal
snapshot, restart flag and policy configuration but arbitrary random
sources return equal act sequences. -/
theorem predispatch_deterministic (pol : DialoguePolicy)
    (ds : DialogueState) (restart : Bool) (rs1 rs2 : RandomSource)
    (h : (restartCond ds restart || startCond ds restart ||
      ackCond ds) = true) :
    next_action pol rs1 ds restart = next_action pol rs2 ds restart := by
  unfold next_action
  cases hb : restartCond ds restart <;>
    cases hs : startCond ds restart <;>
      cases ha : ackCond ds <;> simp_all

/-- A second concrete random source, disagreeing with `idRS`. -/
def revRS : RandomSource :=
  { shuffle := fun l => l.reverse, sample2 := fun l => (l.reverse).take 2 }

/-- C10 witness: the theorem applied at a concrete restart snapshot and
two different random sources. -/
theorem predispatch_deterministic_witness :
    next_action ⟨true, false⟩ idRS dsRestartW true =
      next_action ⟨true, false⟩ revRS dsRestartW true :=
  predispatch_deterministic ⟨true, false⟩ dsRestartW true idRS revRS
    (by decide)

/-! ## C6 -/

/-- A recommend-eligible snapshot with no results: empty
`database_result` and `agent_should_make_offer` false. -/
def dsEmptyDb : DialogueState :=
  { last_user_dacts := [⟨.user .ACCEPT, []⟩]
    last_agent_dacts := [⟨.agent .ELICIT, []⟩]
    agent_requestable := ["genres"]
    frame_CIN := [("genres", true)]
    slot_left_unasked := 1
    database_result := []
    item_in_focus := [("title", .str "Inception")]
    agent_req_filled := true
    agent_should_make_offer := false
    agent_offer_state := ["agent_should_make_offer"] }

/-- C6 counterexample: on an empty `database_result` with no pending
offer, `recommend` raises the generic `IndexError` of
`database_result[0]`, not the descriptive state-inconsistency error the
claim describes. -/
theorem recommend_empty_db_index_error_cex :
    recommend dsEmptyDb [] = .error .indexError ∧
    errIsStateInconsistency (recommend dsEmptyDb []) = false := by
  exact ⟨rfl, rfl⟩

/-- C6 (amended): with `database_result` empty and no pending offer,
`recommend` raises an error (the `IndexError` of `database_result[0]`)
rather than silently recommending nothing; with a pending offer it
recommends `item_in_focus`, otherwise the first database entry, emitting
a single `RECOMMEND` act constrained on the selected item's title. -/
theorem recommend_cases_amended (ds : DialogueState)
    (slots : List String) :
    (ds.database_result = [] → ds.agent_should_make_offer = false →
      recommend ds slots = .error .indexError) ∧
    (∀ t, ds.agent_should_make_offer = true →
      dictGet ds.item_in_focus Slots.TITLE = some t →
      recommend ds slots =
        .ok [⟨.agent .RECOMMEND, [⟨Slots.TITLE, .EQ, t⟩]⟩]) ∧
    (∀ i restDb t, ds.agent_should_make_offer = false →
      ds.database_result = i :: restDb →
      dictGet i Slots.TITLE = some t →
      recommend ds slots =
        .ok [⟨.agent .RECOMMEND, [⟨Slots.TITLE, .EQ, t⟩]⟩]) := by
  refine ⟨fun hdb hoff => ?_, fun t hoff ht => ?_,
    fun i restDb t hoff hdb ht => ?_⟩
  · simp [recommend, hdb, hoff]
  · simp [recommend, hoff, ht]
  · simp [recommend, hoff, hdb, ht]

/-- C6 witness: the amended theorem applied at concrete snapshots. -/
theorem recommend_cases_amended_witness :
    recommend dsEmptyDb [] = .error .indexError :=
  (recommend_cases_amended dsEmptyDb []).1 rfl rfl

/-! ## C1 -/

/-- A snapshot meeting the elicit threshold in which every requestable
slot has a filled frame entry (`agent_req_filled` false). -/
def dsAllFilled : DialogueState :=
  { last_user_dacts := [⟨.user .ACCEPT, []⟩]
    last_agent_dacts := [⟨.agent .ELICIT, []⟩]
    agent_requestable := ["actors"]
    frame_CIN := [("genres", false), ("actors", true)]
    slot_left_unasked := 1
    database_result := [[("title", .str "A")], [("title", .str "B")]]
    item_in_focus := [("title", .str "A")]
    agent_req_filled := false
    agent_should_make_offer := false
    agent_offer_state := [] }

/-- A snapshot meeting the threshold whose requestable slot "year" has
no `frame_CIN` entry. -/
def dsMissingKey : DialogueState :=
  { dsAllFilled with
    frame_CIN := [("genres", false)]
    agent_requestable := ["year"] }

/-- C1 counterexample, refuting both halves of the claim as stated: at
the threshold with `agent_req_filled` false and every requestable slot
filled in the frame, the handler's result is not only `COUNT_RESULTS` —
an `ELICIT` act (with an empty constraint list) is still appended; and
at the threshold with a requestable slot absent from the frame, the
handler raises instead of emitting any `COUNT_RESULTS` act at all. -/
theorem elicit_all_filled_emits_empty_elicit_cex :
    elicit idRS dsAllFilled ["actors"] =
      .ok [countResultsAct dsAllFilled, ⟨.agent .ELICIT, []⟩] ∧
    (([countResultsAct dsAllFilled,
        ⟨.agent .ELICIT, []⟩] : List DialogueAct).any
      (fun a => a.intent = .agent .ELICIT)) = true ∧
    elicit idRS dsMissingKey ["year"] = .error (.keyError "year") := by
  exact ⟨rfl, rfl, rfl⟩

/-- C1 (amended): when the number of unfilled non-title frame slots
reaches `slot_left_unasked`, the elicit handler either raises (a frame
lookup or index failure) or returns a result carrying the
`COUNT_RESULTS` act with count `len(database_result)` as its first act;
and when additionally `agent_req_filled` is false and every requestable
slot has a filled frame entry, the result is exactly `COUNT_RESULTS`
followed by an `ELICIT` act with an empty constraint list (not a
`COUNT_RESULTS`-only result). -/
theorem elicit_threshold_amended (rs : RandomSource) (ds : DialogueState)
    (slots : List String)
    (hperm : ∀ l, (rs.shuffle l).Perm l)
    (hthr : ds.slot_left_unasked ≤ (CIN_slots_of ds.frame_CIN).length) :
    ((∃ e, elicit rs ds slots = .error e) ∨
      (∃ rest, elicit rs ds slots = .ok (countResultsAct ds :: rest))) ∧
    (ds.agent_req_filled = false →
      (∀ s ∈ slots, dictGet ds.frame_CIN s = some true) →
      elicit rs ds slots =
        .ok [countResultsAct ds, ⟨.agent .ELICIT, []⟩]) := by
  constructor
  · unfold elicit
    rw [if_pos hthr]
    by_cases hrf : ds.agent_req_filled
    · rw [if_pos hrf]
      cases hsh : rs.shuffle (CIN_slots_of ds.frame_CIN) with
      | nil => exact Or.inl ⟨.indexError, rfl⟩
      | cons s tl =>
        exact Or.inr ⟨[⟨.agent .ELICIT, [⟨s, .EQ, .str ""⟩]⟩], rfl⟩
    · rw [if_neg hrf]
      cases hff : findFirstUnfilled ds.frame_CIN (rs.shuffle slots) with
      | error e => exact Or.inl ⟨e, rfl⟩
      | ok ps => exact Or.inr ⟨[⟨.agent .ELICIT, ps⟩], rfl⟩
  · intro hrf hfilled
    have hsub : ∀ s ∈ rs.shuffle slots, dictGet ds.frame_CIN s = some true :=
      fun s hs => hfilled s ((hperm slots).mem_iff.mp hs)
    unfold elicit
    rw [if_pos hthr, if_neg (by simp [hrf]),
      findFirstUnfilled_all_filled ds.frame_CIN (rs.shuffle slots) hsub]

/-- C1 witness: the amended theorem applied at the concrete
all-requestables-filled snapshot. -/
theorem elicit_threshold_amended_witness :
    elicit idRS dsAllFilled ["actors"] =
      .ok [countResultsAct dsAllFilled, ⟨.agent .ELICIT, []⟩] :=
  (elicit_threshold_amended idRS dsAllFilled ["actors"]
      (fun l => List.Perm.refl l) (by decide)).2 rfl (by decide)

/-! ## C9 -/

/-- C9: the elicit handler's frame lookups raise only under a violated
precondition: there is a state meeting the threshold, with
`agent_req_filled` false, whose requestable slot list contains a slot
absent from the frame reached before any unfilled slot, on which the
lookup raises `KeyError`; and whenever every slot of the requestable
list has a frame entry, no `KeyError` is possible. -/
theorem elicit_keyError_characterization (rs : RandomSource)
    (ds : DialogueState) (slots : List String)
    (hperm : ∀ l, (rs.shuffle l).Perm l)
    (hpre : ∀ s ∈ slots, (dictGet ds.frame_CIN s).isSome) :
    (∀ k, elicit rs ds slots ≠ .error (.keyError k)) ∧
    elicit idRS dsMissingKey ["year"] = .error (.keyError "year") := by
  constructor
  · intro k
    unfold elicit
    by_cases hthr :
        ds.slot_left_unasked ≤ (CIN_slots_of ds.frame_CIN).length
    · rw [if_pos hthr]
      by_cases hrf : ds.agent_req_filled
      · rw [if_pos hrf]
        cases rs.shuffle (CIN_slots_of ds.frame_CIN) <;> simp
      · rw [if_neg hrf]
        have hsub : ∀ s ∈ rs.shuffle slots,
            (dictGet ds.frame_CIN s).isSome :=
          fun s hs => hpre s ((hperm slots).mem_iff.mp hs)
        obtain ⟨ps, hps⟩ :=
          findFirstUnfilled_ok ds.frame_CIN (rs.shuffle slots) hsub
        rw [hps]
        simp
    · rw [if_neg hthr]
      simp
  · rfl

/-- C9 witness: the theorem applied at a concrete precondition-satisfying
snapshot. -/
theorem elicit_keyError_characterization_witness :
    elicit idRS dsAllFilled ["actors"] ≠ .error (.keyError "actors") :=
  (elicit_keyError_characterization idRS dsAllFilled ["actors"]
      (fun l => List.Perm.refl l) (by decide)).1 "actors"

/-! ## C3 -/

/-- The cons unfolding of the per-parameter copying loop. -/
theorem informParams_cons (item : Item) (p : ItemConstraint)
    (rest : List ItemConstraint) :
    informParams item (p :: rest) =
      if p.slot ≠ Slots.MORE_INFO then
        match dictGet item p.slot with
        | none => .error (.keyError p.slot)
        | some v =>
          match informParams item rest with
          | .error e => .error e
          | .ok ps => .ok (⟨p.slot, .EQ, v⟩ :: ps)
      else
        match dictGet item Slots.TITLE with
        | none => .error (.keyError Slots.TITLE)
        | some v =>
          match informParams item rest with
          | .error e => .error e
          | .ok ps => .ok (⟨p.slot, .EQ, v⟩ :: ps) := rfl

/-- The cons unfolding of the user-act loop. -/
theorem inform_go_cons (item : Item) (x : DialogueAct)
    (rest : List DialogueAct) :
    inform_go item (x :: rest) =
      match processUserDact item x with
      | .error e => .error e
      | .ok acts1 =>
        match inform_go item rest with
        | .error e => .error e
        | .ok acts => .ok (acts1 ++ acts) := rfl

/-- Splitting the user-act loop of `inform_or_recommend` at an append:
once the prefix processes successfully, the whole list's result is the
prefix's acts followed by the suffix's. -/
theorem inform_go_append (item : Item) (xs ys : List DialogueAct)
    (l1 : List DialogueAct) (h1 : inform_go item xs = .ok l1) :
    inform_go item (xs ++ ys) =
      (inform_go item ys).map (fun l2 => l1 ++ l2) := by
  induction xs generalizing l1 with
  | nil =>
    cases h1
    cases hys : inform_go item ys <;> simp [Except.map, hys]
  | cons x xs ih =>
    rw [inform_go_cons] at h1
    cases hx : processUserDact item x with
    | error e => rw [hx] at h1; exact absurd h1 (by simp)
    | ok acts1 =>
      rw [hx] at h1
      cases hxs : inform_go item xs with
      | error e => rw [hxs] at h1; exact absurd h1 (by simp)
      | ok acts =>
        rw [hxs] at h1
        cases h1
        rw [List.cons_append, inform_go_cons, hx, ih acts hxs]
        cases hys : inform_go item ys <;> simp [Except.map, hys]

/-- A snapshot whose single user act is an INQUIRE whose requested slot
is absent from the focused item. -/
def dsInquireMissing : DialogueState :=
  { dsAllFilled with
    last_user_dacts := [⟨.user .INQUIRE, [⟨"genres", .EQ, .str ""⟩]⟩]
    item_in_focus := [("title", .str "Inception")] }

/-- C3 counterexample: an INQUIRE act whose requested slot cannot be
resolved (absent from `item_in_focus`) makes the handler raise
`KeyError` at `item_in_focus[param.slot]`; no `INFORM` act with a deny
constraint is produced. -/
theorem inform_unresolvable_raises_cex :
    inform_or_recommend dsInquireMissing [] =
      .error (.keyError "genres") := rfl

/-- C3 (amended): the deny fallback fires exactly for an INQUIRE act
with an empty constraint list — the only way the copying pass adds no
parameter without raising — producing an `INFORM` act with a single
deny constraint carrying the focused item's title; each non-more-info
parameter slot is copied from `item_in_focus` (raising `KeyError` when
absent), and the more-info slot is substituted by the item's title. -/
theorem inform_or_recommend_amended (ds : DialogueState)
    (slots : List String) (pre post : List DialogueAct) (t : Value)
    (l1 l2 : List DialogueAct)
    (ht : dictGet ds.item_in_focus Slots.TITLE = some t)
    (hsplit : ds.last_user_dacts = pre ++ ⟨.user .INQUIRE, []⟩ :: post)
    (hpre : inform_go ds.item_in_focus pre = .ok l1)
    (hpost : inform_go ds.item_in_focus post = .ok l2) :
    inform_or_recommend ds slots =
      .ok (l1 ++ ⟨.agent .INFORM, [⟨"deny", .EQ, t⟩]⟩ :: l2) ∧
    (∀ p ps v, p.slot ≠ Slots.MORE_INFO →
      dictGet ds.item_in_focus p.slot = some v →
      informParams ds.item_in_focus (p :: ps) =
        (informParams ds.item_in_focus ps).map
          (fun l => ⟨p.slot, .EQ, v⟩ :: l)) ∧
    (∀ p ps, p.slot = Slots.MORE_INFO →
      informParams ds.item_in_focus (p :: ps) =
        (informParams ds.item_in_focus ps).map
          (fun l => ⟨p.slot, .EQ, t⟩ :: l)) := by
  refine ⟨?_, fun p ps v hp hv => ?_, fun p ps hp => ?_⟩
  · unfold inform_or_recommend
    rw [hsplit, inform_go_append ds.item_in_focus pre _ l1 hpre]
    have hstep : inform_go ds.item_in_focus (⟨.user .INQUIRE, []⟩ :: post) =
        .ok (⟨.agent .INFORM, [⟨"deny", .EQ, t⟩]⟩ :: l2) := by
      rw [inform_go_cons]
      rw [show processUserDact ds.item_in_focus ⟨.user .INQUIRE, []⟩ =
          .ok [⟨.agent .INFORM, [⟨"deny", .EQ, t⟩]⟩] by
        simp [processUserDact, informParams, ht]]
      rw [hpost]
      rfl
    rw [hstep]
    rfl
  · rw [informParams_cons, if_pos hp, hv]
    cases hrec : informParams ds.item_in_focus ps <;>
      simp [Except.map, hrec]
  · rw [informParams_cons, if_neg (by simp [hp]), ht]
    cases hrec : informParams ds.item_in_focus ps <;>
      simp [Except.map, hrec]

/-- C3 witness: the amended theorem applied at a concrete snapshot
containing a parameterless INQUIRE act. -/
def dsInquireEmpty : DialogueState :=
  { dsInquireMissing with
    last_user_dacts := [⟨.user .INQUIRE, []⟩] }

/-- C3 witness theorem. -/
theorem inform_or_recommend_amended_witness :
    inform_or_recommend dsInquireEmpty [] =
      .ok [⟨.agent .INFORM, [⟨"deny", .EQ, .str "Inception"⟩]⟩] :=
  (inform_or_recommend_amended dsInquireEmpty [] [] []
      (.str "Inception") [] [] rfl rfl rfl rfl).1

/-! ## C7 -/

/-- C7 counterexample: a database whose single entry yields the single
comma-fragment "drama" — the aggregator's output is the fragment wrapped
in single quotes by the accumulation step, not the fragment itself. -/
theorem generate_examples_quotes_cex :
    generate_examples idRS [[("genres", .str "drama")]] "genres" =
      .ok (some (quoteFrag "drama")) ∧ quoteFrag "drama" ≠ "drama" := by
  constructor
  · decide
  · decide

/-- C7 (amended): when the accumulated example list has exactly one
distinct entry, the aggregator returns that stored entry (the single
fragment as quoted by the accumulation pass) unmodified, with no
`" or "` joining, for every permutation the shuffle may pick. -/
theorem generate_examples_single_amended (rs : RandomSource)
    (db : List Item) (slot : String) (exs : List String) (e : String)
    (hperm : ∀ l, (rs.shuffle l).Perm l)
    (hcol : collectExamples slot db [] = .ok exs)
    (hone : exs.eraseDups = [e]) :
    generate_examples rs db slot = .ok (some e) := by
  have hne : exs.isEmpty = false := by
    cases exs with
    | nil =>
      rw [show (List.eraseDups ([] : List String)) = [] from rfl] at hone
      exact absurd hone (by simp)
    | cons a l => rfl
  have hsh : rs.shuffle exs.eraseDups = [e] := by
    rw [hone]
    exact List.perm_singleton.mp (hperm [e])
  simp [generate_examples, hcol, hne, hsh]

/-- C7 witness: the amended theorem applied at a concrete database with
one distinct fragment spread over two result rows. -/
theorem generate_examples_single_amended_witness :
    generate_examples idRS
      [[("genres", .str "drama")], [("genres", .str " drama ")]]
      "genres" = .ok (some (quoteFrag "drama")) :=
  generate_examples_single_amended idRS
    [[("genres", .str "drama")], [("genres", .str " drama ")]]
    "genres" [quoteFrag "drama", quoteFrag "drama"] (quoteFrag "drama")
    (fun l => List.Perm.refl l) (by decide) (by decide)

/-! ## C2 -/

/-- Well-formedness of a snapshot (the caller-side contract of §3 of the
design: a non-empty requestable list whose slots all appear in the
frame, a focused item with a title, items containing every slot the
user's constraints reference, a first database entry with a title
whenever no offer is pending, and a positive elicitation threshold). -/
def WFState (ds : DialogueState) : Prop :=
  ds.agent_requestable ≠ [] ∧
  (∀ s ∈ ds.agent_requestable, (dictGet ds.frame_CIN s).isSome) ∧
  (dictGet ds.item_in_focus Slots.TITLE).isSome ∧
  (∀ ud ∈ ds.last_user_dacts, ∀ p ∈ ud.params,
    (dictGet ds.item_in_focus p.slot).isSome) ∧
  (ds.agent_should_make_offer = true ∨
    (ds.database_result ≠ [] ∧
      (dictGet (ds.database_result.headD []) Slots.TITLE).isSome)) ∧
  1 ≤ ds.slot_left_unasked

/-- `elicit` cannot raise when every requestable slot is in the frame
and the threshold is positive. -/
theorem elicit_ok (rs : RandomSource) (ds : DialogueState)
    (slots : List String)
    (hperm : ∀ l, (rs.shuffle l).Perm l)
    (hcin : ∀ s ∈ slots, (dictGet ds.frame_CIN s).isSome)
    (hsl : 1 ≤ ds.slot_left_unasked) :
    ∃ acts, elicit rs ds slots = .ok acts := by
  unfold elicit
  by_cases hthr : ds.slot_left_unasked ≤ (CIN_slots_of ds.frame_CIN).length
  · rw [if_pos hthr]
    by_cases hrf : ds.agent_req_filled
    · rw [if_pos hrf]
      have hlen : (rs.shuffle (CIN_slots_of ds.frame_CIN)).length =
          (CIN_slots_of ds.frame_CIN).length :=
        (hperm (CIN_slots_of ds.frame_CIN)).length_eq
      cases hsh : rs.shuffle (CIN_slots_of ds.frame_CIN) with
      | nil =>
        rw [hsh] at hlen
        simp at hlen
        omega
      | cons s tl => exact ⟨_, rfl⟩
    · rw [if_neg hrf]
      obtain ⟨ps, hps⟩ := findFirstUnfilled_ok ds.frame_CIN
        (rs.shuffle slots)
        (fun s hs => hcin s ((hperm slots).mem_iff.mp hs))
      rw [hps]
      exact ⟨_, rfl⟩
  · rw [if_neg hthr]
    exact ⟨[], rfl⟩

/-- `recommend` cannot raise when the focused item has a title and an
offer is pending or the first database entry has a title. -/
theorem recommend_ok (ds : DialogueState) (slots : List String)
    (ht : (dictGet ds.item_in_focus Slots.TITLE).isSome)
    (hdb : ds.agent_should_make_offer = true ∨
      (ds.database_result ≠ [] ∧
        (dictGet (ds.database_result.headD []) Slots.TITLE).isSome)) :
    ∃ acts, recommend ds slots = .ok acts := by
  by_cases hoff : ds.agent_should_make_offer
  · obtain ⟨t, htt⟩ := Option.isSome_iff_exists.mp ht
    exact ⟨[⟨.agent .RECOMMEND, [⟨Slots.TITLE, .EQ, t⟩]⟩],
      by simp [recommend, hoff, htt]⟩
  · have hr : ds.database_result ≠ [] ∧
        (dictGet (ds.database_result.headD []) Slots.TITLE).isSome := by
      rcases hdb with h | h
      · exact absurd h (by simp [hoff])
      · exact h
    cases hdbe : ds.database_result with
    | nil => exact absurd hdbe hr.1
    | cons i rest =>
      have hi : (dictGet i Slots.TITLE).isSome := by
        have := hr.2
        rw [hdbe] at this
        simpa using this
      obtain ⟨t, htt⟩ := Option.isSome_iff_exists.mp hi
      exact ⟨[⟨.agent .RECOMMEND, [⟨Slots.TITLE, .EQ, t⟩]⟩],
        by simp [recommend, hoff, hdbe, htt]⟩

/-- The per-parameter copying loop cannot raise when the item holds a
title and every referenced slot. -/
theorem informParams_ok (item : Item) (ps : List ItemConstraint)
    (ht : (dictGet item Slots.TITLE).isSome)
    (hp : ∀ p ∈ ps, (dictGet item p.slot).isSome) :
    ∃ l, informParams item ps = .ok l := by
  induction ps with
  | nil => exact ⟨[], rfl⟩
  | cons p rest ih =>
    obtain ⟨l, hl⟩ := ih (fun q hq => hp q (by simp [hq]))
    by_cases hmi : p.slot ≠ Slots.MORE_INFO
    · obtain ⟨v, hv⟩ := Option.isSome_iff_exists.mp (hp p (by simp))
      exact ⟨_, by rw [informParams_cons, if_pos hmi, hv, hl]⟩
    · obtain ⟨v, hv⟩ := Option.isSome_iff_exists.mp ht
      exact ⟨_, by rw [informParams_cons, if_neg hmi, hv, hl]⟩

/-- A single user act's contribution cannot raise under the same item
conditions. -/
theorem processUserDact_ok (item : Item) (ud : DialogueAct)
    (ht : (dictGet item Slots.TITLE).isSome)
    (hp : ∀ p ∈ ud.params, (dictGet item p.slot).isSome) :
    ∃ acts, processUserDact item ud = .ok acts := by
  obtain ⟨t, htt⟩ := Option.isSome_iff_exists.mp ht
  by_cases hI : ud.intent = .user .INQUIRE
  · obtain ⟨l, hl⟩ := informParams_ok item ud.params ht hp
    by_cases hlen : l.length = 0
    · refine ⟨[⟨.agent .INFORM, [⟨"deny", .EQ, t⟩]⟩], ?_⟩
      unfold processUserDact
      rw [if_pos hI, hl]
      simp [hlen, htt]
    · refine ⟨[⟨.agent .INFORM, l⟩], ?_⟩
      unfold processUserDact
      rw [if_pos hI, hl]
      simp [hlen]
  · by_cases hA : ud.intent = .user .ACCEPT
    · refine ⟨[⟨.agent .CONTINUE_RECOMMENDATION,
          [⟨Slots.TITLE, .EQ, t⟩]⟩], ?_⟩
      unfold processUserDact
      rw [if_neg hI, if_pos hA, htt]
    · refine ⟨[], ?_⟩
      unfold processUserDact
      rw [if_neg hI, if_neg hA]

/-- The whole user-act loop cannot raise under the same conditions. -/
theorem inform_go_ok (item : Item) (uds : List DialogueAct)
    (ht : (dictGet item Slots.TITLE).isSome)
    (hp : ∀ ud ∈ uds, ∀ p ∈ ud.params, (dictGet item p.slot).isSome) :
    ∃ acts, inform_go item uds = .ok acts := by
  induction uds with
  | nil => exact ⟨[], rfl⟩
  | cons ud rest ih =>
    obtain ⟨a1, ha1⟩ := processUserDact_ok item ud ht
      (fun p hpp => hp ud (by simp) p hpp)
    obtain ⟨as2, has2⟩ := ih (fun u hu => hp u (by simp [hu]))
    exact ⟨a1 ++ as2, by rw [inform_go_cons, ha1, has2]⟩

/-- `choose_elicit_or_recommend` cannot raise under the combined
conditions of its two sub-handlers. -/
theorem choose_ok (rs : RandomSource) (ds : DialogueState)
    (slots : List String)
    (hperm : ∀ l, (rs.shuffle l).Perm l)
    (hcin : ∀ s ∈ slots, (dictGet ds.frame_CIN s).isSome)
    (hsl : 1 ≤ ds.slot_left_unasked)
    (ht : (dictGet ds.item_in_focus Slots.TITLE).isSome)
    (hdb : ds.agent_should_make_offer = true ∨
      (ds.database_result ≠ [] ∧
        (dictGet (ds.database_result.headD []) Slots.TITLE).isSome)) :
    ∃ acts, choose_elicit_or_recommend rs ds slots = .ok acts := by
  unfold choose_elicit_or_recommend
  obtain ⟨acts, ha⟩ := elicit_ok rs ds slots hperm hcin hsl
  rw [ha]
  cases acts with
  | nil => exact recommend_ok ds slots ht hdb
  | cons a tl => exact ⟨_, rfl⟩

/-- Every recognized handler of the dispatch table returns (rather than
raises) on a snapshot satisfying the well-formedness conditions. -/
theorem handler_ok (rs : RandomSource) (ds : DialogueState)
    (slots : List String)
    (hperm : ∀ l, (rs.shuffle l).Perm l)
    (hcin : ∀ s ∈ slots, (dictGet ds.frame_CIN s).isSome)
    (hsl : 1 ≤ ds.slot_left_unasked)
    (ht : (dictGet ds.item_in_focus Slots.TITLE).isSome)
    (hinf : ∀ ud ∈ ds.last_user_dacts, ∀ p ∈ ud.params,
      (dictGet ds.item_in_focus p.slot).isSome)
    (hdb : ds.agent_should_make_offer = true ∨
      (ds.database_result ≠ [] ∧
        (dictGet (ds.database_result.headD []) Slots.TITLE).isSome)) :
    ∀ name f, possible_actions_per_state rs name = some f →
      ∃ acts, f ds slots = .ok acts := by
  intro name f hpa
  unfold possible_actions_per_state at hpa
  split_ifs at hpa <;> cases hpa
  · exact elicit_ok rs ds slots hperm hcin hsl
  · exact choose_ok rs ds slots hperm hcin hsl ht hdb
  · exact recommend_ok ds slots ht hdb
  · exact inform_go_ok ds.item_in_focus ds.last_user_dacts ht hinf
  · exact ⟨_, rfl⟩
  · exact ⟨_, rfl⟩

/-- The cons unfolding of the dispatch loop. -/
theorem dispatchGo_cons (rs : RandomSource) (ds : DialogueState)
    (slots : List String) (name : String) (rest : List String) :
    dispatchGo rs ds slots (name :: rest) =
      match possible_actions_per_state rs name with
      | none => dispatchGo rs ds slots rest
      | some handler =>
        match handler ds slots with
        | .error e => .error e
        | .ok [] => dispatchGo rs ds slots rest
        | .ok acts => .ok acts := rfl

/-- The dispatch loop terminates with a non-empty act list on a
well-formed snapshot. -/
theorem dispatchGo_ok (rs : RandomSource) (ds : DialogueState)
    (slots : List String) (names : List String)
    (hperm : ∀ l, (rs.shuffle l).Perm l)
    (hcin : ∀ s ∈ slots, (dictGet ds.frame_CIN s).isSome)
    (hsl : 1 ≤ ds.slot_left_unasked)
    (ht : (dictGet ds.item_in_focus Slots.TITLE).isSome)
    (hinf : ∀ ud ∈ ds.last_user_dacts, ∀ p ∈ ud.params,
      (dictGet ds.item_in_focus p.slot).isSome)
    (hdb : ds.agent_should_make_offer = true ∨
      (ds.database_result ≠ [] ∧
        (dictGet (ds.database_result.headD []) Slots.TITLE).isSome)) :
    ∃ acts, dispatchGo rs ds slots names = .ok acts ∧ acts ≠ [] := by
  induction names with
  | nil => exact ⟨[cantHelpAct], rfl, by simp⟩
  | cons name rest ih =>
    cases hpa : possible_actions_per_state rs name with
    | none =>
      obtain ⟨acts2, ha2, hne2⟩ := ih
      exact ⟨acts2, by simp only [dispatchGo_cons, hpa]; exact ha2, hne2⟩
    | some f =>
      obtain ⟨acts, ha⟩ :=
        handler_ok rs ds slots hperm hcin hsl ht hinf hdb name f hpa
      cases acts with
      | nil =>
        obtain ⟨acts2, ha2, hne2⟩ := ih
        exact ⟨acts2,
          by simp only [dispatchGo_cons, hpa, ha]; exact ha2, hne2⟩
      | cons a tl =>
        exact ⟨a :: tl, by simp only [dispatchGo_cons, hpa, ha], by simp⟩

/-- C2: `next_action` is total and never empty on a well-formed
snapshot; when the pre-dispatch branches decline and every active tag is
unrecognized or maps to a handler returning the empty list (including
the active-tag set being empty), the result is exactly `[CANT_HELP]`;
and an empty handler result makes dispatch continue with the remaining
tags. -/
theorem next_action_total_and_fallback (pol : DialoguePolicy)
    (rs : RandomSource) (ds : DialogueState) (restart : Bool)
    (hperm : ∀ l, (rs.shuffle l).Perm l) :
    (WFState ds →
      ∃ acts, next_action pol rs ds restart = .ok acts ∧ acts ≠ []) ∧
    (restartCond ds restart = false → startCond ds restart = false →
      ackCond ds = false →
      (∀ name ∈ ds.agent_offer_state, ∀ f,
        possible_actions_per_state rs name = some f →
        f ds ds.agent_requestable = .ok []) →
      next_action pol rs ds restart = .ok [cantHelpAct]) ∧
    (∀ ds2 slots2 name rest f,
      possible_actions_per_state rs name = some f →
      f ds2 slots2 = .ok [] →
      dispatchGo rs ds2 slots2 (name :: rest) =
        dispatchGo rs ds2 slots2 rest) := by
  refine ⟨fun hwf => ?_, fun h1 h2 h3 hall => ?_,
    fun ds2 slots2 name rest f hpa hempty => ?_⟩
  · obtain ⟨hreq, hcin, ht, hinf, hdb, hsl⟩ := hwf
    cases hrc : restartCond ds restart with
    | true =>
      cases hreqe : ds.agent_requestable with
      | nil => exact absurd hreqe hreq
      | cons s0 tl =>
        refine ⟨[⟨.agent .RESTART, []⟩,
          ⟨.agent .ELICIT, [⟨s0, .EQ, .str ""⟩]⟩], ?_, by simp⟩
        simp [next_action, hrc, hreqe]
    | false =>
      cases hsc : startCond ds restart with
      | true =>
        refine ⟨[welcomeAct pol], ?_, by simp⟩
        simp [next_action, hrc, hsc]
      | false =>
        cases hac : ackCond ds with
        | true =>
          cases hreqe : ds.agent_requestable with
          | nil => exact absurd hreqe hreq
          | cons s0 tl =>
            refine ⟨[⟨.agent .ELICIT, [⟨s0, .EQ, .str ""⟩]⟩], ?_,
              by simp⟩
            simp [next_action, hrc, hsc, hac, hreqe]
        | false =>
          obtain ⟨acts, ha, hne⟩ := dispatchGo_ok rs ds
            ds.agent_requestable ds.agent_offer_state hperm hcin hsl ht
            hinf hdb
          refine ⟨acts, ?_, hne⟩
          simp only [next_action, hrc, hsc, hac]
          simpa using ha
  · have hdall : ∀ names,
        (∀ name ∈ names, ∀ f,
          possible_actions_per_state rs name = some f →
          f ds ds.agent_requestable = .ok []) →
        dispatchGo rs ds ds.agent_requestable names = .ok [cantHelpAct] := by
      intro names
      induction names with
      | nil => intro _; rfl
      | cons name rest ih =>
        intro hall2
        cases hpa : possible_actions_per_state rs name with
        | none =>
          simp only [dispatchGo_cons, hpa]
          exact ih (fun n hn => hall2 n (by simp [hn]))
        | some f =>
          simp only [dispatchGo_cons, hpa, hall2 name (by simp) f hpa]
          exact ih (fun n hn => hall2 n (by simp [hn]))
    simp only [next_action, h1, h2, h3]
    simpa using hdall ds.agent_offer_state hall
  · simp [dispatchGo, hpa, hempty]

/-- A concrete well-formed snapshot that reaches dispatch with an empty
active-tag set. -/
def dsDispatchW : DialogueState :=
  { last_user_dacts := [⟨.user .ACCEPT, []⟩]
    last_agent_dacts := [⟨.agent .RECOMMEND, []⟩]
    agent_requestable := ["genres"]
    frame_CIN := [("genres", false)]
    slot_left_unasked := 1
    database_result := []
    item_in_focus := [("title", .str "T")]
    agent_req_filled := false
    agent_should_make_offer := true
    agent_offer_state := [] }

/-- C2 witness: the totality conjunct applied at a concrete well-formed
snapshot. -/
theorem next_action_total_witness :
    ∃ acts, next_action ⟨true, false⟩ idRS dsDispatchW false =
      .ok acts ∧ acts ≠ [] :=
  (next_action_total_and_fallback ⟨true, false⟩ idRS dsDispatchW false
    (fun l => List.Perm.refl l)).1
    (by
      refine ⟨by decide, by decide, by decide, by decide, by decide,
        by decide⟩)

/-! ## C5: heap-instrumented embedding

The pure embedding above treats `deepcopy` as the identity, which is
sound for values but silent about aliasing.  To settle the non-mutation
claim, this second embedding makes the three caller-owned list objects
(`agent_requestable`, `frame_CIN`, `database_result`) heap cells
addressed by references, models line 52's
`slots = deepcopy(dialogue_state.agent_requestable)` as an allocation of
a fresh cell holding a copy, and models each `random.shuffle` as an
in-place write to the shuffled cell.  The claim is then that no write of
`next_action` ever targets one of the caller's cells. -/

inductive Cell
  | strs (l : List String)
  | frame (f : List (String × Bool))
  | items (l : List Item)
  deriving DecidableEq, Repr

/-- The object heap: cells addressed by position. -/
abbrev Heap := List Cell

/-- Read a string-list cell (reference into the heap). -/
def readStrs (h : Heap) (r : Nat) : List String :=
  match h[r]? with
  | some (.strs l) => l
  | _ => []

/-- Read the frame cell. -/
def readFrame (h : Heap) (r : Nat) : List (String × Bool) :=
  match h[r]? with
  | some (.frame f) => f
  | _ => []

/-- Read the database-result cell. -/
def readItems (h : Heap) (r : Nat) : List Item :=
  match h[r]? with
  | some (.items l) => l
  | _ => []

/-- In-place update of a string-list cell (`random.shuffle`). -/
def writeStrs (h : Heap) (r : Nat) (l : List String) : Heap :=
  h.set r (.strs l)

/-- Allocate a fresh cell at the end of the heap, returning its
reference. -/
def allocCell (h : Heap) (c : Cell) : Heap × Nat :=
  (h ++ [c], h.length)

/-- The snapshot with its three caller-owned list objects replaced by
heap references. -/
structure DialogueStateH where
  last_user_dacts : List DialogueAct
  last_agent_dacts : List DialogueAct
  agent_requestable_ref : Nat
  frame_CIN_ref : Nat
  slot_left_unasked : Nat
  database_result_ref : Nat
  item_in_focus : Item
  agent_req_filled : Bool
  agent_should_make_offer : Bool
  agent_offer_state : List String
  deriving DecidableEq, Repr

/-- The restart guard over the heap snapshot. -/
def restartCondH (ds : DialogueStateH) (restart : Bool) : Bool :=
  restart || ds.last_user_dacts.any (fun d => d.intent = .user .RESTART)

/-- The conversation-start guard over the heap snapshot. -/
def startCondH (ds : DialogueStateH) (restart : Bool) : Bool :=
  !restart &&
    (ds.last_user_dacts.isEmpty || ds.last_agent_dacts.isEmpty ||
      ds.last_user_dacts.all (fun d => d.intent = .user .HI))

/-- The acknowledgement guard over the heap snapshot. -/
def ackCondH (ds : DialogueStateH) : Bool :=
  (ds.last_user_dacts.any (fun d =>
      d.intent = .user .ACKNOWLEDGE || d.intent = .user .UNK)) &&
    (ds.last_agent_dacts.any (fun d => d.intent = .agent .WELCOME))

/-- `elicit` over the heap: `CIN_slots` is a freshly allocated list, and
the two `random.shuffle` calls write in place — to the fresh `CIN_slots`
cell or to the `slots` cell passed by the dispatcher (the deep copy made
by `next_action`), never to the snapshot's own cells. -/
def elicitH (rs : RandomSource) (h : Heap) (ds : DialogueStateH)
    (slotsRef : Nat) : Except PyErr (List DialogueAct) × Heap :=
  let frame := readFrame h ds.frame_CIN_ref
  let (h1, cinRef) := allocCell h (.strs (CIN_slots_of frame))
  if ds.slot_left_unasked ≤ (readStrs h1 cinRef).length then
    let countAct : DialogueAct :=
      ⟨.agent .COUNT_RESULTS,
        [⟨"count", .EQ,
          .num (readItems h1 ds.database_result_ref).length⟩]⟩
    if ds.agent_req_filled then
      let h2 := writeStrs h1 cinRef (rs.shuffle (readStrs h1 cinRef))
      match readStrs h2 cinRef with
      | [] => (.error .indexError, h2)
      | s :: _ =>
        (.ok [countAct, ⟨.agent .ELICIT, [⟨s, .EQ, .str ""⟩]⟩], h2)
    else
      let h2 := writeStrs h1 slotsRef (rs.shuffle (readStrs h1 slotsRef))
      match findFirstUnfilled frame (readStrs h2 slotsRef) with
      | .error e => (.error e, h2)
      | .ok params => (.ok [countAct, ⟨.agent .ELICIT, params⟩], h2)
  else (.ok [], h1)

/-- `recommend` over the heap: reads only, heap unchanged. -/
def recommendH (h : Heap) (ds : DialogueStateH) (slotsRef : Nat) :
    Except PyErr (List DialogueAct) × Heap :=
  let item? : Except PyErr Item :=
    if ds.agent_should_make_offer then .ok ds.item_in_focus
    else
      match readItems h ds.database_result_ref with
      | [] => .error .indexError
      | i :: _ => .ok i
  (match item? with
   | .error e => .error e
   | .ok item =>
     match dictGet item Slots.TITLE with
     | none => .error (.keyError Slots.TITLE)
     | some t => .ok [⟨.agent .RECOMMEND, [⟨Slots.TITLE, .EQ, t⟩]⟩], h)

/-- `inform_or_recommend` over the heap: reads only, heap unchanged. -/
def inform_or_recommendH (h : Heap) (ds : DialogueStateH)
    (slotsRef : Nat) : Except PyErr (List DialogueAct) × Heap :=
  (inform_go ds.item_in_focus ds.last_user_dacts, h)

/-- `no_results` over the heap. -/
def no_resultsH (h : Heap) (ds : DialogueStateH) (slotsRef : Nat) :
    Except PyErr (List DialogueAct) × Heap :=
  (.ok [⟨.agent .NO_RESULTS, []⟩], h)

/-- `finish` over the heap. -/
def finishH (h : Heap) (ds : DialogueStateH) (slotsRef : Nat) :
    Except PyErr (List DialogueAct) × Heap :=
  (.ok [⟨.agent .BYE, []⟩], h)

/-- `choose_elicit_or_recommend` over the heap. -/
def chooseH (rs : RandomSource) (h : Heap) (ds : DialogueStateH)
    (slotsRef : Nat) : Except PyErr (List DialogueAct) × Heap :=
  match elicitH rs h ds slotsRef with
  | (.error e, h2) => (.error e, h2)
  | (.ok [], h2) => recommendH h2 ds slotsRef
  | (.ok acts, h2) => (.ok acts, h2)

/-- The dispatch table over the heap. -/
def possible_actions_per_stateH (rs : RandomSource) (name : String) :
    Option (Heap → DialogueStateH → Nat →
      Except PyErr (List DialogueAct) × Heap) :=
  if name = "agent_req_filled" then some (elicitH rs)
  else if name = "agent_made_partial_offer" then some (chooseH rs)
  else if name = "agent_should_make_offer" then some recommendH
  else if name = "agent_made_offer" then some inform_or_recommendH
  else if name = "agent_offer_no_results" then some no_resultsH
  else if name = "at_terminal_state" then some finishH
  else none

/-- The dispatch loop over the heap, threading the mutated heap through
fall-through steps. -/
def dispatchH (rs : RandomSource) (ds : DialogueStateH)
    (slotsRef : Nat) :
    Heap → List String → Except PyErr (List DialogueAct) × Heap
  | h, [] => (.ok [cantHelpAct], h)
  | h, name :: rest =>
    match possible_actions_per_stateH rs name with
    | none => dispatchH rs ds slotsRef h rest
    | some f =>
      match f h ds slotsRef with
      | (.error e, h2) => (.error e, h2)
      | (.ok [], h2) => dispatchH rs ds slotsRef h2 rest
      | (.ok acts, h2) => (.ok acts, h2)

/-- `next_action` over the heap: line 52 allocates a fresh cell holding
a copy of `agent_requestable` (`deepcopy`), and every later shuffle
writes only to that cell or to cells allocated afterwards. -/
def next_actionH (pol : DialoguePolicy) (rs : RandomSource) (h : Heap)
    (ds : DialogueStateH) (restart : Bool) :
    Except PyErr (List DialogueAct) × Heap :=
  let (h1, slotsRef) :=
    allocCell h (.strs (readStrs h ds.agent_requestable_ref))
  if restartCondH ds restart then
    match readStrs h1 slotsRef with
    | [] => (.error .indexError, h1)
    | s0 :: _ =>
      (.ok [⟨.agent .RESTART, []⟩,
            ⟨.agent .ELICIT, [⟨s0, .EQ, .str ""⟩]⟩], h1)
  else if startCondH ds restart then (.ok [welcomeAct pol], h1)
  else if ackCondH ds then
    match readStrs h1 slotsRef with
    | [] => (.error .indexError, h1)
    | s0 :: _ => (.ok [⟨.agent .ELICIT, [⟨s0, .EQ, .str ""⟩]⟩], h1)
  else dispatchH rs ds slotsRef h1 ds.agent_offer_state

/-- Heap `h2` agrees with `h` on every reference below `n`. -/
def PreservedBelow (n : Nat) (h h2 : Heap) : Prop :=
  ∀ r, r < n → h2[r]? = h[r]?

/-- Preservation is reflexive. -/
theorem preservedBelow_refl (n : Nat) (h : Heap) :
    PreservedBelow n h h := fun _ _ => rfl

/-- Preservation composes. -/
theorem preservedBelow_trans (n : Nat) (h h2 h3 : Heap)
    (a : PreservedBelow n h h2) (b : PreservedBelow n h2 h3) :
    PreservedBelow n h h3 :=
  fun r hr => (b r hr).trans (a r hr)

/-- Allocation never changes an existing cell. -/
theorem allocCell_preserves (h : Heap) (c : Cell) (n : Nat)
    (hn : n ≤ h.length) : PreservedBelow n h (allocCell h c).1 :=
  fun r hr => List.getElem?_append_left (lt_of_lt_of_le hr hn)

/-- A write at a reference at or above `n` never changes a cell
below `n`. -/
theorem writeStrs_preserves (h : Heap) (i : Nat) (l : List String)
    (n : Nat) (hn : n ≤ i) : PreservedBelow n h (writeStrs h i l) :=
  fun r hr => List.getElem?_set_ne (by omega)

/-- The second component (final heap) of `elicitH`, in closed form:
one fresh allocation, then possibly one in-place shuffle write. -/
theorem elicitH_snd (rs : RandomSource) (h : Heap) (ds : DialogueStateH)
    (slotsRef : Nat) :
    (elicitH rs h ds slotsRef).2 =
      if ds.slot_left_unasked ≤
          (readStrs
            (h ++ [Cell.strs (CIN_slots_of (readFrame h ds.frame_CIN_ref))])
            h.length).length then
        if ds.agent_req_filled then
          writeStrs
            (h ++ [Cell.strs (CIN_slots_of (readFrame h ds.frame_CIN_ref))])
            h.length
            (rs.shuffle (readStrs
              (h ++ [Cell.strs (CIN_slots_of (readFrame h ds.frame_CIN_ref))])
              h.length))
        else
          writeStrs
            (h ++ [Cell.strs (CIN_slots_of (readFrame h ds.frame_CIN_ref))])
            slotsRef
            (rs.shuffle (readStrs
              (h ++ [Cell.strs (CIN_slots_of (readFrame h ds.frame_CIN_ref))])
              slotsRef))
      else h ++ [Cell.strs (CIN_slots_of (readFrame h ds.frame_CIN_ref))] := by
  unfold elicitH
  simp only [allocCell]
  split
  · split
    · split <;> rfl
    · split <;> rfl
  · rfl

/-- `elicitH` only writes to the `slots` copy and to cells it allocates
itself: every cell below `n` survives, and the heap never shrinks. -/
theorem elicitH_preserves (rs : RandomSource) (h : Heap)
    (ds : DialogueStateH) (slotsRef : Nat) (n : Nat)
    (hn : n ≤ h.length) (hs : n ≤ slotsRef) :
    PreservedBelow n h (elicitH rs h ds slotsRef).2 ∧
      n ≤ (elicitH rs h ds slotsRef).2.length := by
  rw [elicitH_snd]
  have hp1 : PreservedBelow n h
      (h ++ [Cell.strs (CIN_slots_of (readFrame h ds.frame_CIN_ref))]) :=
    fun r hr => List.getElem?_append_left (lt_of_lt_of_le hr hn)
  have hl1 : n ≤
      (h ++ [Cell.strs (CIN_slots_of (readFrame h ds.frame_CIN_ref))]).length := by
    simp
    omega
  split
  · split
    · exact ⟨preservedBelow_trans n h _ _ hp1
        (writeStrs_preserves _ h.length _ n hn),
        by simpa [writeStrs] using hl1⟩
    · exact ⟨preservedBelow_trans n h _ _ hp1
        (writeStrs_preserves _ slotsRef _ n hs),
        by simpa [writeStrs] using hl1⟩
  · exact ⟨hp1, hl1⟩

/-- `chooseH` writes only through `elicitH`. -/
theorem chooseH_preserves (rs : RandomSource) (h : Heap)
    (ds : DialogueStateH) (slotsRef : Nat) (n : Nat)
    (hn : n ≤ h.length) (hs : n ≤ slotsRef) :
    PreservedBelow n h (chooseH rs h ds slotsRef).2 ∧
      n ≤ (chooseH rs h ds slotsRef).2.length := by
  obtain ⟨hp, hl⟩ := elicitH_preserves rs h ds slotsRef n hn hs
  rcases he : elicitH rs h ds slotsRef with ⟨res, h2⟩
  rw [he] at hp hl
  unfold chooseH
  rw [he]
  cases res with
  | error e => exact ⟨hp, hl⟩
  | ok acts =>
    cases acts with
    | nil => exact ⟨hp, hl⟩
    | cons a tl => exact ⟨hp, hl⟩

/-- Every handler of the heap dispatch table writes only to the `slots`
copy or to cells it allocates itself. -/
theorem handlerH_preserves (rs : RandomSource) (name : String)
    (f : Heap → DialogueStateH → Nat →
      Except PyErr (List DialogueAct) × Heap)
    (hpa : possible_actions_per_stateH rs name = some f) :
    ∀ (h : Heap) (ds : DialogueStateH) (slotsRef n : Nat),
      n ≤ h.length → n ≤ slotsRef →
      PreservedBelow n h (f h ds slotsRef).2 ∧
        n ≤ (f h ds slotsRef).2.length := by
  unfold possible_actions_per_stateH at hpa
  split_ifs at hpa <;> cases hpa
  all_goals intro h ds slotsRef n hn hs
  · exact elicitH_preserves rs h ds slotsRef n hn hs
  · exact chooseH_preserves rs h ds slotsRef n hn hs
  · exact ⟨preservedBelow_refl n h, hn⟩
  · exact ⟨preservedBelow_refl n h, hn⟩
  · exact ⟨preservedBelow_refl n h, hn⟩
  · exact ⟨preservedBelow_refl n h, hn⟩

/-- The cons unfolding of the heap dispatch loop. -/
theorem dispatchH_cons (rs : RandomSource) (ds : DialogueStateH)
    (slotsRef : Nat) (h : Heap) (name : String) (rest : List String) :
    dispatchH rs ds slotsRef h (name :: rest) =
      match possible_actions_per_stateH rs name with
      | none => dispatchH rs ds slotsRef h rest
      | some f =>
        match f h ds slotsRef with
        | (.error e, h2) => (.error e, h2)
        | (.ok [], h2) => dispatchH rs ds slotsRef h2 rest
        | (.ok acts, h2) => (.ok acts, h2) := rfl

/-- The heap dispatch loop writes only to the `slots` copy or to
freshly allocated cells, across every fall-through step. -/
theorem dispatchH_preserves (rs : RandomSource) (ds : DialogueStateH)
    (slotsRef : Nat) (names : List String) :
    ∀ (h : Heap) (n : Nat), n ≤ h.length → n ≤ slotsRef →
      PreservedBelow n h (dispatchH rs ds slotsRef h names).2 ∧
        n ≤ (dispatchH rs ds slotsRef h names).2.length := by
  induction names with
  | nil => exact fun h n hn _ => ⟨preservedBelow_refl n h, hn⟩
  | cons name rest ih =>
    intro h n hn hs
    cases hpa : possible_actions_per_stateH rs name with
    | none =>
      obtain ⟨hp2, hl2⟩ := ih h n hn hs
      exact ⟨by simpa only [dispatchH_cons, hpa] using hp2,
        by simpa only [dispatchH_cons, hpa] using hl2⟩
    | some f =>
      obtain ⟨hp2, hl2⟩ :=
        handlerH_preserves rs name f hpa h ds slotsRef n hn hs
      rcases hf : f h ds slotsRef with ⟨res, h2⟩
      rw [hf] at hp2 hl2
      simp only [dispatchH_cons, hpa, hf]
      cases res with
      | error e => exact ⟨hp2, hl2⟩
      | ok acts =>
        cases acts with
        | nil =>
          obtain ⟨hp3, hl3⟩ := ih h2 n hl2 hs
          exact ⟨preservedBelow_trans n h h2 _ hp2 hp3, hl3⟩
        | cons a tl => exact ⟨hp2, hl2⟩

/-- `next_actionH` changes no cell that existed before the call. -/
theorem next_actionH_preservedBelow (pol : DialoguePolicy)
    (rs : RandomSource) (h : Heap) (ds : DialogueStateH)
    (restart : Bool) :
    PreservedBelow h.length h (next_actionH pol rs h ds restart).2 := by
  unfold next_actionH
  simp only [allocCell]
  have hp1 : PreservedBelow h.length h
      (h ++ [Cell.strs (readStrs h ds.agent_requestable_ref)]) :=
    fun r hr => List.getElem?_append_left hr
  split
  · split <;> exact hp1
  · split
    · exact hp1
    · split
      · split <;> exact hp1
      · obtain ⟨hp2, _⟩ := dispatchH_preserves rs ds h.length
          ds.agent_offer_state
          (h ++ [Cell.strs (readStrs h ds.agent_requestable_ref)])
          h.length (by simp) (le_refl h.length)
        exact preservedBelow_trans h.length h _ _ hp1 hp2

/-- C5: `next_action` leaves the caller's `agent_requestable`,
`frame_CIN` and `database_result` objects unchanged: the only cells the
heap-instrumented policy writes are the private deep copy of
`agent_requestable` made at entry and the freshly built `CIN_slots`
list, so the snapshot's own cells — and with them the field values a
second call would observe — are untouched. -/
theorem next_actionH_preserves_snapshot (pol : DialoguePolicy)
    (rs : RandomSource) (h : Heap) (ds : DialogueStateH) (restart : Bool)
    (hr1 : ds.agent_requestable_ref < h.length)
    (hr2 : ds.frame_CIN_ref < h.length)
    (hr3 : ds.database_result_ref < h.length) :
    ((next_actionH pol rs h ds restart).2)[ds.agent_requestable_ref]? =
      h[ds.agent_requestable_ref]? ∧
    ((next_actionH pol rs h ds restart).2)[ds.frame_CIN_ref]? =
      h[ds.frame_CIN_ref]? ∧
    ((next_actionH pol rs h ds restart).2)[ds.database_result_ref]? =
      h[ds.database_result_ref]? := by
  have hp := next_actionH_preservedBelow pol rs h ds restart
  exact ⟨hp ds.agent_requestable_ref hr1, hp ds.frame_CIN_ref hr2,
    hp ds.database_result_ref hr3⟩

/-- A concrete three-cell heap owned by the caller. -/
def heapW : Heap :=
  [.strs ["genres", "actors"], .frame [("genres", false)],
   .items [[("title", .str "T")]]]

/-- A concrete heap snapshot pointing at `heapW`'s cells. -/
def dsHeapW : DialogueStateH :=
  { last_user_dacts := [⟨.user .ACCEPT, []⟩]
    last_agent_dacts := [⟨.agent .RECOMMEND, []⟩]
    agent_requestable_ref := 0
    frame_CIN_ref := 1
    slot_left_unasked := 1
    database_result_ref := 2
    item_in_focus := [("title", .str "T")]
    agent_req_filled := false
    agent_should_make_offer := false
    agent_offer_state := ["agent_req_filled"] }

/-- C5 witness: the theorem applied at the concrete heap and snapshot —
the elicit handler runs (shuffling its `slots` copy) and the caller's
three cells are untouched. -/
theorem next_actionH_preserves_snapshot_witness :
    ((next_actionH ⟨true, false⟩ idRS heapW dsHeapW false).2)[(0 : Nat)]? =
      heapW[(0 : Nat)]? ∧
    ((next_actionH ⟨true, false⟩ idRS heapW dsHeapW false).2)[(1 : Nat)]? =
      heapW[(1 : Nat)]? ∧
    ((next_actionH ⟨true, false⟩ idRS heapW dsHeapW false).2)[(2 : Nat)]? =
      heapW[(2 : Nat)]? :=
  next_actionH_preserves_snapshot ⟨true, false⟩ idRS heapW dsHeapW false
    (by decide) (by decide) (by decide)
